import Mathlib

set_option maxHeartbeats 1000000

/-!
Verification development for the arcade pinball physics core (pinball.py).
Floating-point arithmetic of the source is modelled over the real numbers;
the one source of randomness that matters to the claims (the plunger impulse
`random.random()`) is passed in explicitly as a parameter `u` with `0 ≤ u < 1`.
-/

/-! ## 2D vectors (class Vec) -/

structure Vec where
  x : ℝ
  y : ℝ

instance : Add Vec := ⟨fun a b => ⟨a.x + b.x, a.y + b.y⟩⟩

instance : Sub Vec := ⟨fun a b => ⟨a.x - b.x, a.y - b.y⟩⟩

/-- Source `Vec.__mul__`: scale by a scalar. -/
def Vec.smul (v : Vec) (s : ℝ) : Vec := ⟨v.x * s, v.y * s⟩

/-- Source `Vec.dot`. -/
def Vec.dot (a b : Vec) : ℝ := a.x * b.x + a.y * b.y

/-- Source `Vec.mag`: `math.hypot(x, y)`. -/
noncomputable def Vec.mag (v : Vec) : ℝ := Real.sqrt (v.x ^ 2 + v.y ^ 2)

/-- Source `Vec.norm`: returns the zero vector when the magnitude is exactly zero. -/
noncomputable def Vec.norm (v : Vec) : Vec :=
  if v.mag = 0 then ⟨0, 0⟩ else ⟨v.x / v.mag, v.y / v.mag⟩

/-- Source `clamp(v, lo, hi)`. -/
noncomputable def clamp (v lo hi : ℝ) : ℝ :=
  if v < lo then lo else if hi < v then hi else v

/-! ## Physics constants (PinballGame.__init__) -/

noncomputable def W : ℝ := 400

noncomputable def H : ℝ := 700

noncomputable def gravity : ℝ := 0.25

noncomputable def friction : ℝ := 0.99

noncomputable def wall_bounce : ℝ := 0.6

noncomputable def flipper_speed : ℝ := 0.25

/-! ## Game objects -/

structure Ball where
  r : ℝ
  pos : Vec
  vel : Vec
  active : Bool

/-- Source `Ball.reset_in_lane(w, h)`. -/
def Ball.reset_in_lane (b : Ball) (w h : ℝ) : Ball :=
  { b with pos := ⟨w - 20, h - 100⟩, vel := ⟨0, 0⟩, active := true }

/-- Source `Ball.launch(w)`, with the value of `random.random()` passed as `u`. -/
noncomputable def Ball.launch (b : Ball) (w u : ℝ) : Ball :=
  if b.active = true ∧ w - 60 < b.pos.x then
    { b with vel := ⟨b.vel.x, -20 - u * 5⟩ }
  else b

structure Bumper where
  pos : Vec
  r : ℝ
  flashFrames : ℤ

/-- Source `Bumper.hit`. -/
def Bumper.hit (b : Bumper) : Bumper := { b with flashFrames := 10 }

inductive SegKind where
  | wall
  | slingshot
  | lane
  | rail
deriving DecidableEq

structure Segment where
  p1 : Vec
  p2 : Vec
  kind : SegKind

/-- Source `Segment.__init__`: precomputed left-hand unit normal, with the
zero-length fallback `ln = math.hypot(dx, dy) or 1.0`. -/
noncomputable def Segment.normal (s : Segment) : Vec :=
  let dx := s.p2.x - s.p1.x
  let dy := s.p2.y - s.p1.y
  let ln := if Vec.mag ⟨dx, dy⟩ = 0 then 1 else Vec.mag ⟨dx, dy⟩
  ⟨-dy / ln, dx / ln⟩

inductive Side where
  | left
  | right
deriving DecidableEq

structure Flipper where
  pivot : Vec
  length : ℝ
  side : Side
  restAngle : ℝ
  flipAngle : ℝ
  angle : ℝ
  target : ℝ
  width : ℝ

/-- Source `Flipper.__init__(x, y, length, side, start_ang, max_ang)`. -/
noncomputable def mkFlipper (x y length : ℝ) (side : Side) (start_ang max_ang : ℝ) :
    Flipper :=
  let rest := if side = Side.left then start_ang else Real.pi - start_ang
  let flip := if side = Side.left then -max_ang else Real.pi + max_ang
  ⟨⟨x, y⟩, length, side, rest, flip, rest, rest, 10⟩

/-- Source `Flipper.set_pressed(pressed)`. -/
def Flipper.set_pressed (f : Flipper) (pressed : Bool) : Flipper :=
  { f with target := if pressed then f.flipAngle else f.restAngle }

/-- Source `Flipper.update(speed)`: exponential smoothing toward the target angle. -/
def Flipper.update (f : Flipper) (speed : ℝ) : Flipper :=
  { f with angle := f.angle + (f.target - f.angle) * speed }

/-- Source `Flipper.tip()`. -/
noncomputable def Flipper.tip (f : Flipper) : Vec :=
  ⟨f.pivot.x + Real.cos f.angle * f.length, f.pivot.y + Real.sin f.angle * f.length⟩

/-! ## Collision helpers -/

/-- Closest point to `c` on the segment `p1`-`p2`, as computed by
`_collide_ball_segment` and `_collide_ball_flipper` (`vv = v.dot(v) or 1.0`,
projection parameter clamped to `[0, 1]`). -/
noncomputable def segClosest (p1 p2 c : Vec) : Vec :=
  let v := p2 - p1
  let vv := if v.dot v = 0 then 1 else v.dot v
  p1 + Vec.smul v (clamp (((c - p1).dot v) / vv) 0 1)

/-- Penetration normal for a ball/segment overlap: `n = d.norm()`, replaced by
the segment's precomputed normal when the distance is exactly zero. -/
noncomputable def segCollisionNormal (seg : Segment) (d : Vec) : Vec :=
  if d.mag = 0 then seg.normal else d.norm

/-- Penetration normal for the circle-style tests (bumper, flipper):
`n = d.norm() if dist != 0 else Vec(0, -1)`. -/
noncomputable def circCollisionNormal (d : Vec) : Vec :=
  if d.mag ≠ 0 then d.norm else ⟨0, -1⟩

/-- The reflection formula of `_collide_ball_segment`:
`v - (1+e)*(v.dot n)*n`, componentwise as in the source. -/
noncomputable def reflect (v n : Vec) (e : ℝ) : Vec :=
  ⟨v.x - (1 + e) * v.dot n * n.x, v.y - (1 + e) * v.dot n * n.y⟩

/-! ## Game session state -/

inductive Mode where
  | start
  | playing
  | gameover
deriving DecidableEq

structure Game where
  mode : Mode
  score : ℤ
  lives : ℤ
  frame : ℤ
  lastWallScoreFrame : ℤ
  shakeFrames : ℤ
  ball : Ball
  segs : List Segment
  bumpers : List Bumper
  left : Flipper
  right : Flipper
  leftDown : Bool
  rightDown : Bool

/-- Source `PinballGame._add_score(pts)`. -/
def add_score (g : Game) (pts : ℤ) : Game := { g with score := g.score + pts }

/-- Source `PinballGame._shake(frames)`. -/
def shake (g : Game) (frames : ℤ) : Game :=
  { g with shakeFrames := max g.shakeFrames frames }

/-- Vector from the closest point on `seg` to the ball center. -/
noncomputable def segDelta (g : Game) (seg : Segment) : Vec :=
  g.ball.pos - segClosest seg.p1 seg.p2 g.ball.pos

/-- Vector from a bumper center to the ball center. -/
noncomputable def bumpDelta (g : Game) (b : Bumper) : Vec := g.ball.pos - b.pos

/-- Vector from the closest point on a flipper's pivot-to-tip segment to the
ball center. -/
noncomputable def flipDelta (g : Game) (f : Flipper) : Vec :=
  g.ball.pos - segClosest f.pivot f.tip g.ball.pos

/-- Source `PinballGame._collide_ball_segment(seg)`. -/
noncomputable def collide_ball_segment (g : Game) (seg : Segment) : Game :=
  let d := segDelta g seg
  let dist := d.mag
  if dist < g.ball.r then
    let n := segCollisionNormal seg d
    let g1 := { g with ball := { g.ball with
      pos := g.ball.pos + Vec.smul n (g.ball.r - dist),
      vel := reflect g.ball.vel n
        (if seg.kind = SegKind.slingshot then (1.5 : ℝ) else wall_bounce) } }
    if seg.kind = SegKind.slingshot then
      shake (add_score g1 10) 4
    else
      if 6 < g1.frame - g1.lastWallScoreFrame then
        { (add_score g1 10) with lastWallScoreFrame := g1.frame }
      else g1
  else g

/-- Source `PinballGame._collide_ball_bumper(b)`; returns the updated game state and
the updated bumper. -/
noncomputable def collide_ball_bumper (g : Game) (b : Bumper) : Game × Bumper :=
  let d := bumpDelta g b
  let dist := d.mag
  if dist < g.ball.r + b.r then
    let n := circCollisionNormal d
    let speed := max 5 g.ball.vel.mag * 1.2
    let g1 := { g with ball := { g.ball with
      pos := g.ball.pos + Vec.smul n ((g.ball.r + b.r) - dist),
      vel := Vec.smul n speed } }
    (shake (add_score g1 100) 8, b.hit)
  else (g, b)

/-- Source `PinballGame._collide_ball_flipper(f)` (the flipper itself is not
mutated by the source routine). -/
noncomputable def collide_ball_flipper (g : Game) (f : Flipper) : Game :=
  let d := flipDelta g f
  let dist := d.mag
  if dist < g.ball.r + 5 then
    let n := circCollisionNormal d
    let dotv := g.ball.vel.dot n
    let vel1 : Vec := ⟨g.ball.vel.x - 2 * dotv * n.x, g.ball.vel.y - 2 * dotv * n.y⟩
    let g1 := { g with ball := { g.ball with
      pos := g.ball.pos + Vec.smul n ((g.ball.r + 5) - dist), vel := vel1 } }
    if (f.side = Side.left ∧ f.target < f.angle) ∨
        (f.side = Side.right ∧ f.angle < f.target) then
      shake { g1 with ball := { g1.ball with
        vel := ⟨vel1.x + (if f.side = Side.left then 5 else -5), vel1.y - 10⟩ } } 2
    else
      { g1 with ball := { g1.ball with vel := ⟨vel1.x * 0.95, vel1.y⟩ } }
  else g

/-- Traversal of the bumper list: the game state threads through, each bumper
is replaced by its updated version. -/
noncomputable def collide_bumpers : Game → List Bumper → Game × List Bumper
  | g, [] => (g, [])
  | g, b :: bs =>
      let r := collide_ball_bumper g b
      let rest := collide_bumpers r.1 bs
      (rest.1, r.2 :: rest.2)

/-- The unconditional left/right safety clamp at the end of
`_resolve_collisions`. -/
noncomputable def clamp_x (g : Game) : Game :=
  let g1 := if g.ball.pos.x < g.ball.r then
      { g with ball := { g.ball with
          pos := ⟨g.ball.r, g.ball.pos.y⟩
          vel := ⟨-g.ball.vel.x * wall_bounce, g.ball.vel.y⟩ } }
    else g
  if W - g1.ball.r < g1.ball.pos.x then
    { g1 with ball := { g1.ball with
        pos := ⟨W - g1.ball.r, g1.ball.pos.y⟩
        vel := ⟨-g1.ball.vel.x * wall_bounce, g1.ball.vel.y⟩ } }
  else g1

/-- Source `PinballGame._resolve_collisions()`. -/
noncomputable def resolve_collisions (g : Game) : Game :=
  let g1 := g.segs.foldl collide_ball_segment g
  let r := collide_bumpers g1 g1.bumpers
  let g2 := { r.1 with bumpers := r.2 }
  let g3 := collide_ball_flipper g2 g2.left
  let g4 := collide_ball_flipper g3 g3.right
  clamp_x g4

/-- Gravity application and Euler integration, the first two lines of
`_step_ball`. -/
noncomputable def integrate (b : Ball) : Ball :=
  let v : Vec := ⟨b.vel.x * friction, (b.vel.y + gravity) * friction⟩
  { b with vel := v, pos := b.pos + v }

/-- The top clamp in `_step_ball`. -/
noncomputable def top_clamp (b : Ball) : Ball :=
  if b.pos.y < b.r then
    { b with pos := ⟨b.pos.x, b.r⟩, vel := ⟨b.vel.x, |b.vel.y| * wall_bounce⟩ }
  else b

/-- Source `PinballGame._lose_ball()`. -/
noncomputable def lose_ball (g : Game) : Game :=
  let g1 := shake { g with lives := g.lives - 1 } 12
  if g1.lives ≤ 0 then { g1 with mode := Mode.gameover }
  else { g1 with ball := g1.ball.reset_in_lane W H }

/-- Source `PinballGame._step_ball()`. -/
noncomputable def step_ball (g : Game) : Game :=
  if g.ball.active = true then
    let b1 := top_clamp (integrate g.ball)
    let g1 := { g with ball := b1 }
    if H + 50 < b1.pos.y then lose_ball g1
    else resolve_collisions (resolve_collisions g1)
  else g

/-- The timer decay performed by `_render` every frame: the shake counter and
each bumper's flash counter tick down while positive. -/
def render_decay (g : Game) : Game :=
  { g with
    shakeFrames := if 0 < g.shakeFrames then g.shakeFrames - 1 else g.shakeFrames,
    bumpers := g.bumpers.map fun b =>
      if 0 < b.flashFrames then { b with flashFrames := b.flashFrames - 1 } else b }

/-- Source `PinballGame._tick()`: frame counter, flipper kinematics and the ball step
while playing, then the render-side timer decay. -/
noncomputable def tick (g : Game) : Game :=
  let g0 := { g with frame := g.frame + 1 }
  let g1 := if g0.mode = Mode.playing then
      step_ball { g0 with
        left := (g0.left.set_pressed g0.leftDown).update flipper_speed,
        right := (g0.right.set_pressed g0.rightDown).update flipper_speed }
    else g0
  render_decay g1

/-- The static table geometry built by `_build_table()`. -/
noncomputable def table_segs : List Segment :=
  [ ⟨⟨0, 0⟩, ⟨0, H⟩, SegKind.wall⟩,
    ⟨⟨0, 100⟩, ⟨100, 0⟩, SegKind.wall⟩,
    ⟨⟨100, 0⟩, ⟨W - 40, 0⟩, SegKind.wall⟩,
    ⟨⟨W, 0⟩, ⟨W, H⟩, SegKind.wall⟩,
    ⟨⟨W - 40, 140⟩, ⟨W - 40, H - 40⟩, SegKind.lane⟩,
    ⟨⟨W - 40, H - 40⟩, ⟨W, H - 40⟩, SegKind.lane⟩,
    ⟨⟨W, 140⟩, ⟨W - 40, 0⟩, SegKind.wall⟩,
    ⟨⟨0, H - 200⟩, ⟨110, H - 60⟩, SegKind.wall⟩,
    ⟨⟨W - 40, H - 200⟩, ⟨W - 150, H - 60⟩, SegKind.wall⟩,
    ⟨⟨0, H⟩, ⟨165, H⟩, SegKind.rail⟩,
    ⟨⟨235, H⟩, ⟨W, H⟩, SegKind.rail⟩,
    ⟨⟨40, H - 180⟩, ⟨40, H - 120⟩, SegKind.slingshot⟩,
    ⟨⟨40, H - 120⟩, ⟨90, H - 150⟩, SegKind.slingshot⟩,
    ⟨⟨90, H - 150⟩, ⟨40, H - 180⟩, SegKind.slingshot⟩,
    ⟨⟨W - 80, H - 180⟩, ⟨W - 80, H - 120⟩, SegKind.slingshot⟩,
    ⟨⟨W - 80, H - 120⟩, ⟨W - 130, H - 150⟩, SegKind.slingshot⟩,
    ⟨⟨W - 130, H - 150⟩, ⟨W - 80, H - 180⟩, SegKind.slingshot⟩ ]

/-- The three bumpers built by `_build_table()`. -/
noncomputable def table_bumpers : List Bumper :=
  [ ⟨⟨W / 2, 150⟩, 25, 0⟩, ⟨⟨W / 2 - 60, 220⟩, 25, 0⟩, ⟨⟨W / 2 + 60, 220⟩, 25, 0⟩ ]

/-- Source `PinballGame._start_game()`. -/
noncomputable def start_game (g : Game) : Game :=
  { g with
    mode := Mode.playing
    score := 0
    lives := 3
    shakeFrames := 0
    leftDown := false
    rightDown := false
    left := g.left.set_pressed false
    right := g.right.set_pressed false
    segs := table_segs
    bumpers := table_bumpers
    ball := g.ball.reset_in_lane W H }

/-- The state at process start (`PinballGame.__init__`). -/
noncomputable def init_game : Game :=
  { mode := Mode.start
    score := 0
    lives := 3
    frame := 0
    lastWallScoreFrame := -999
    shakeFrames := 0
    ball := ⟨10, ⟨0, 0⟩, ⟨0, 0⟩, false⟩
    segs := table_segs
    bumpers := table_bumpers
    left := mkFlipper 110 (H - 60) 70 Side.left (Real.pi / 6) (Real.pi / 4)
    right := mkFlipper 260 (H - 60) 70 Side.right (Real.pi / 6) (Real.pi / 4)
    leftDown := false
    rightDown := false }

/-- External stimuli to the session, as wired in `_bind_events`:
one simulation/render frame, flipper key edges, the launch key (with the
plunger's random draw `u`), and a click landing inside the overlay button
rectangle. -/
inductive Event where
  | frame
  | leftDown
  | leftUp
  | rightDown
  | rightUp
  | launch (u : ℝ)
  | click

/-- One transition of the session: `_tick` for a frame, the key handlers
(`_on_key_down` acts only while playing, `_on_key_up` is unguarded),
and `_on_click` inside the button rectangle, which calls `_start_game`
without checking the current mode. -/
noncomputable def step (g : Game) : Event → Game
  | Event.frame => tick g
  | Event.leftDown => if g.mode = Mode.playing then { g with leftDown := true } else g
  | Event.leftUp => { g with leftDown := false }
  | Event.rightDown => if g.mode = Mode.playing then { g with rightDown := true } else g
  | Event.rightUp => { g with rightDown := false }
  | Event.launch u => if g.mode = Mode.playing then { g with ball := g.ball.launch W u } else g
  | Event.click => start_game g

/-- States reachable from process start; a launch event always carries a
`random.random()` draw in `[0, 1)`. -/
inductive Reach : Game → Prop where
  | init : Reach init_game
  | next (g : Game) (e : Event) (hg : Reach g)
      (hu : ∀ u : ℝ, e = Event.launch u → 0 ≤ u ∧ u < 1) : Reach (step g e)

/-! ## The wall-score throttle in isolation -/

/-- The score/throttle update of the non-slingshot branch of
`_collide_ball_segment`, as a function of the current frame, the last
wall-score frame and the score; returns (new score, new last frame). -/
def wallScoreStep (frame last score : ℤ) : ℤ × ℤ :=
  if 6 < frame - last then (score + 10, frame) else (score, last)

/-- Iterate the wall-score update over `n` consecutive frames starting at
frame `f` (a ball in resting contact is hit once per frame). The pair carries
(score, last wall score frame). -/
def runWall : ℤ → ℕ → ℤ × ℤ → ℤ × ℤ
  | _, 0, s => s
  | f, Nat.succ n, s => runWall (f + 1) n (wallScoreStep f s.2 s.1)

/-! ## Concrete fixtures used by witnesses and counterexamples -/

/-- A horizontal wall segment from (0,0) to (2,0). -/
def exSeg : Segment := ⟨⟨0, 0⟩, ⟨2, 0⟩, SegKind.wall⟩

/-- The same segment marked as a slingshot. -/
def exSlingSeg : Segment := ⟨⟨0, 0⟩, ⟨2, 0⟩, SegKind.slingshot⟩

/-- A ball of radius 2 at (1,1) falling straight down. -/
def exBall : Ball := ⟨2, ⟨1, 1⟩, ⟨0, -3⟩, true⟩

/-- A flipper fixture with angle 0 and target 1. -/
def exFlip : Flipper := ⟨⟨0, 0⟩, 70, Side.left, 0, -1, 0, 1, 10⟩

/-- A playing-state fixture over `exBall`, with adjustable frame counters. -/
def exGame (fr la : ℤ) : Game :=
  { mode := Mode.playing
    score := 0
    lives := 3
    frame := fr
    lastWallScoreFrame := la
    shakeFrames := 0
    ball := exBall
    segs := []
    bumpers := []
    left := exFlip
    right := exFlip
    leftDown := false
    rightDown := false }

/-- A bumper fixture: radius 3 centered at (0,1). -/
def exBumper : Bumper := ⟨⟨0, 1⟩, 3, 0⟩

/-- A playing-state fixture with a stationary ball of radius 10 at the
origin, overlapping `exBumper`. -/
def exBumpGame : Game :=
  { (exGame 0 0) with ball := ⟨10, ⟨0, 0⟩, ⟨0, 0⟩, true⟩ }

/-- A playing-state fixture whose ball is far below the drain line. -/
def exDrainGame : Game :=
  { (exGame 0 (-999)) with ball := ⟨10, ⟨380, 800⟩, ⟨0, 0⟩, true⟩ }

/-- A ball resting in the plunger lane (x = 390 is beyond W - 60 = 340). -/
def exLaneBall : Ball := ⟨10, ⟨390, 600⟩, ⟨3, 2⟩, true⟩

/-- A ball at mid-table (x = 200 is not beyond W - 60 = 340). -/
def exOutBall : Ball := ⟨10, ⟨200, 600⟩, ⟨3, 2⟩, true⟩

/-- A mid-session playing state: the state right after a restart, with an
accumulated score of 500. -/
noncomputable def exPlayGame : Game := { (start_game init_game) with score := 500 }

/-- Fields untouched by the collision-resolution sub-steps: lives and mode are
preserved and the score never decreases. -/
def SP (g g' : Game) : Prop :=
  g'.lives = g.lives ∧ g'.mode = g.mode ∧ g.score ≤ g'.score

/-- The session invariant: lives stay within [0, 3] and a playing session
always has at least one life. -/
def SessionInv (g : Game) : Prop :=
  (0 ≤ g.lives ∧ g.lives ≤ 3) ∧ (g.mode = Mode.playing → 1 ≤ g.lives)

/-! ## Basic vector lemmas -/

lemma Vec.add_def (a b : Vec) : a + b = ⟨a.x + b.x, a.y + b.y⟩ := rfl

lemma Vec.sub_def (a b : Vec) : a - b = ⟨a.x - b.x, a.y - b.y⟩ := rfl

lemma Vec.mag_nonneg (v : Vec) : 0 ≤ v.mag := Real.sqrt_nonneg _

lemma Vec.mag_sq (v : Vec) : v.mag ^ 2 = v.x ^ 2 + v.y ^ 2 :=
  Real.sq_sqrt (by positivity)

lemma Vec.mag_smul (v : Vec) (s : ℝ) : (v.smul s).mag = |s| * v.mag := by
  unfold Vec.smul Vec.mag
  rw [show (v.x * s) ^ 2 + (v.y * s) ^ 2 = s ^ 2 * (v.x ^ 2 + v.y ^ 2) by ring,
    Real.sqrt_mul (sq_nonneg s), Real.sqrt_sq_eq_abs]

lemma Vec.mag_norm (v : Vec) (h : v.mag ≠ 0) : v.norm.mag = 1 := by
  unfold Vec.norm
  rw [if_neg h]
  have hx : (v.x / Vec.mag v) ^ 2 + (v.y / Vec.mag v) ^ 2 = 1 := by
    field_simp
    linarith [Vec.mag_sq v]
  show Real.sqrt ((v.x / Vec.mag v) ^ 2 + (v.y / Vec.mag v) ^ 2) = 1
  rw [hx, Real.sqrt_one]

lemma circ_norm_mag (d : Vec) : (circCollisionNormal d).mag = 1 := by
  unfold circCollisionNormal
  by_cases h : d.mag = 0
  · rw [if_neg (by simp [h])]
    simp [Vec.mag]
  · rw [if_pos h]
    exact Vec.mag_norm d h

/-! ## Claim C10: shake trigger takes the max of current and requested -/

/-- Claim C10: triggering a screen shake sets the shake-frame timer to the
maximum of its current value and the requested frame count, so a new shake
never decreases the remaining shake frames. -/
theorem c10_shake_max (g : Game) (n : ℤ) :
    (shake g n).shakeFrames = max g.shakeFrames n
    ∧ g.shakeFrames ≤ (shake g n).shakeFrames :=
  ⟨rfl, le_max_left _ _⟩

/-! ## Claim C6: flipper advance (corrected: speed strictly below 1) -/

/-- Claim C6 (amended): for every speed in (0, 1) and starting angle different
from the target, one advance step keeps the angle on the same side of the
target, does not increase the distance to the target, and never lands exactly
on the target. (At speed exactly 1 the angle reaches the target, so the
original bound (0, 1] fails.) -/
theorem c6_flipper_advance (f : Flipper) (s : ℝ) (h0 : 0 < s) (h1 : s < 1)
    (hne : f.angle ≠ f.target) :
    0 < ((f.update s).angle - f.target) * (f.angle - f.target)
    ∧ |(f.update s).angle - f.target| ≤ |f.angle - f.target|
    ∧ (f.update s).angle ≠ f.target := by
  have key : (f.update s).angle - f.target = (f.angle - f.target) * (1 - s) := by
    simp only [Flipper.update]
    ring
  have hane : f.angle - f.target ≠ 0 := sub_ne_zero.mpr hne
  have hsq : 0 < (f.angle - f.target) * (f.angle - f.target) := mul_self_pos.mpr hane
  refine ⟨?_, ?_, ?_⟩
  · rw [key]
    nlinarith
  · rw [key, abs_mul]
    have habs : |1 - s| ≤ 1 := by
      rw [abs_of_pos (by linarith)]
      linarith
    calc |f.angle - f.target| * |1 - s| ≤ |f.angle - f.target| * 1 :=
          mul_le_mul_of_nonneg_left habs (abs_nonneg _)
      _ = |f.angle - f.target| := mul_one _
  · rw [← sub_ne_zero, key]
    exact mul_ne_zero hane (by intro hc; linarith [sub_eq_zero.mp hc])

/-- Counterexample to claim C6 as stated: at speed 1 (allowed by the claimed
range (0, 1]) and angle 0, target 1, the advance step lands exactly on the
target. -/
theorem c6_flipper_advance_cex :
    ((0:ℝ) < 1 ∧ (1:ℝ) ≤ 1 ∧ exFlip.angle ≠ exFlip.target)
    ∧ (exFlip.update 1).angle = exFlip.target := by
  refine ⟨⟨by norm_num, le_refl 1, by norm_num [exFlip]⟩, ?_⟩
  norm_num [Flipper.update, exFlip]

/-- Witness for C6 at speed 1/2 on the fixture flipper. -/
theorem c6_flipper_advance_witness :
    ((0:ℝ) < 1/2 ∧ (1:ℝ)/2 < 1 ∧ exFlip.angle ≠ exFlip.target)
    ∧ (0 < ((exFlip.update (1/2)).angle - exFlip.target) * (exFlip.angle - exFlip.target)
       ∧ |(exFlip.update (1/2)).angle - exFlip.target| ≤ |exFlip.angle - exFlip.target|
       ∧ (exFlip.update (1/2)).angle ≠ exFlip.target) := by
  have hne : exFlip.angle ≠ exFlip.target := by norm_num [exFlip]
  exact ⟨⟨by norm_num, by norm_num, hne⟩,
    c6_flipper_advance exFlip (1/2) (by norm_num) (by norm_num) hne⟩

/-! ## Claim C5: launch lane gating -/

/-- Claim C5: with the plunger draw `u` in [0, 1), launch is a no-op unless
the ball is active and beyond `W - 60`; inside the lane it keeps the
horizontal velocity and position and sets the vertical velocity into
[-25, -20]. -/
theorem c5_launch_gating (b : Ball) (u : ℝ) (hu0 : 0 ≤ u) (hu1 : u < 1) :
    (¬(b.active = true ∧ W - 60 < b.pos.x) → b.launch W u = b)
    ∧ (b.active = true → W - 60 < b.pos.x →
        (b.launch W u).vel.x = b.vel.x ∧ (b.launch W u).pos = b.pos
        ∧ -25 ≤ (b.launch W u).vel.y ∧ (b.launch W u).vel.y ≤ -20) := by
  constructor
  · intro h
    simp only [Ball.launch, if_neg h]
  · intro ha hx
    unfold Ball.launch
    rw [if_pos (And.intro ha hx)]
    refine ⟨rfl, rfl, ?_, ?_⟩
    · show -25 ≤ -20 - u * 5
      nlinarith
    · show -20 - u * 5 ≤ -20
      nlinarith

/-- Witness for C5: at mid-table (x = 200) launch is a no-op; in the lane
(x = 390) it sets the vertical velocity into [-25, -20]. -/
theorem c5_launch_gating_witness :
    (¬(exOutBall.active = true ∧ W - 60 < exOutBall.pos.x)
      ∧ exOutBall.launch W (1/2) = exOutBall)
    ∧ (exLaneBall.active = true ∧ W - 60 < exLaneBall.pos.x
      ∧ (exLaneBall.launch W (1/2)).vel.x = exLaneBall.vel.x
      ∧ -25 ≤ (exLaneBall.launch W (1/2)).vel.y
      ∧ (exLaneBall.launch W (1/2)).vel.y ≤ -20) := by
  have hout : ¬(exOutBall.active = true ∧ W - 60 < exOutBall.pos.x) := by
    norm_num [exOutBall, W]
  have ha : exLaneBall.active = true := rfl
  have hx : W - 60 < exLaneBall.pos.x := by norm_num [exLaneBall, W]
  have h1 := (c5_launch_gating exOutBall (1/2) (by norm_num) (by norm_num)).1 hout
  have h2 := (c5_launch_gating exLaneBall (1/2) (by norm_num) (by norm_num)).2 ha hx
  exact ⟨⟨hout, h1⟩, ha, hx, h2.1, h2.2.2.1, h2.2.2.2⟩

/-! ## Claim C8: collision-normal totality -/

/-- Claim C8: the collision-normal computations are total. Normalizing a
zero-magnitude vector yields the zero vector, a zero-distance segment overlap
falls back to the segment's precomputed normal, and a zero-distance
bumper/flipper overlap falls back to straight up (0, -1). -/
theorem c8_normal_totality :
    (∀ v : Vec, v.mag = 0 → v.norm = ⟨0, 0⟩)
    ∧ (∀ (seg : Segment) (d : Vec), d.mag = 0 → segCollisionNormal seg d = seg.normal)
    ∧ (∀ d : Vec, d.mag = 0 → circCollisionNormal d = ⟨0, -1⟩) := by
  refine ⟨?_, ?_, ?_⟩
  · intro v h
    simp [Vec.norm, h]
  · intro seg d h
    simp [segCollisionNormal, h]
  · intro d h
    simp [circCollisionNormal, h]

/-- Witness for C8 at the zero vector and the fixture segment. -/
theorem c8_normal_totality_witness :
    ((⟨0, 0⟩ : Vec).mag = 0 ∧ (⟨0, 0⟩ : Vec).norm = ⟨0, 0⟩)
    ∧ segCollisionNormal exSeg ⟨0, 0⟩ = exSeg.normal
    ∧ circCollisionNormal ⟨0, 0⟩ = ⟨0, -1⟩ := by
  have h : (⟨0, 0⟩ : Vec).mag = 0 := by simp [Vec.mag]
  exact ⟨⟨h, c8_normal_totality.1 _ h⟩, c8_normal_totality.2.1 exSeg _ h,
    c8_normal_totality.2.2 _ h⟩

/-! ## Segment collision: effect on the ball -/

lemma Vec.eq_of (a b : Vec) (hx : a.x = b.x) (hy : a.y = b.y) : a = b := by
  cases a
  cases b
  cases hx
  cases hy
  rfl

/-- Inside a hit, `_collide_ball_segment` updates the ball by the positional
correction and the reflection, independently of the scoring branch. -/
lemma collide_seg_ball (g : Game) (seg : Segment)
    (hhit : (segDelta g seg).mag < g.ball.r) :
    (collide_ball_segment g seg).ball =
      { g.ball with
        pos := g.ball.pos + Vec.smul (segCollisionNormal seg (segDelta g seg))
          (g.ball.r - (segDelta g seg).mag),
        vel := reflect g.ball.vel (segCollisionNormal seg (segDelta g seg))
          (if seg.kind = SegKind.slingshot then (1.5 : ℝ) else wall_bounce) } := by
  simp only [collide_ball_segment]
  rw [if_pos hhit]
  split
  · rfl
  · split
    · rfl
    · rfl

lemma vec_shift (p c s : Vec) : (p + s) - c = (p - c) + s := by
  apply Vec.eq_of
  · show p.x + s.x - c.x = p.x - c.x + s.x
    ring
  · show p.y + s.y - c.y = p.y - c.y + s.y
    ring

/-- Adding the correction `norm(d) * (r - |d|)` to `d` scales `d` to length
`r`. -/
lemma delta_scale (d : Vec) (r : ℝ) (hm : d.mag ≠ 0) :
    d + Vec.smul d.norm (r - d.mag) = Vec.smul d (r / d.mag) := by
  unfold Vec.norm
  rw [if_neg hm]
  apply Vec.eq_of
  · show d.x + d.x / d.mag * (r - d.mag) = d.x * (r / d.mag)
    field_simp
    ring
  · show d.y + d.y / d.mag * (r - d.mag) = d.y * (r / d.mag)
    field_simp
    ring

/-! ## Claim C9: the positional correction fully resolves the overlap -/

/-- Claim C9: when a segment overlap has distance strictly between 0 and the
ball radius, after the positional correction the ball center lies at distance
exactly the radius from the computed closest point. -/
theorem c9_positional_correction (g : Game) (seg : Segment)
    (h0 : 0 < (segDelta g seg).mag) (hr : (segDelta g seg).mag < g.ball.r) :
    ((collide_ball_segment g seg).ball.pos
        - segClosest seg.p1 seg.p2 g.ball.pos).mag = g.ball.r := by
  have hm : (segDelta g seg).mag ≠ 0 := ne_of_gt h0
  have hrpos : 0 < g.ball.r := lt_trans h0 hr
  have hb := collide_seg_ball g seg hr
  have hn : segCollisionNormal seg (segDelta g seg) = (segDelta g seg).norm := by
    unfold segCollisionNormal
    rw [if_neg hm]
  have key : (collide_ball_segment g seg).ball.pos
      - segClosest seg.p1 seg.p2 g.ball.pos
      = Vec.smul (segDelta g seg) (g.ball.r / (segDelta g seg).mag) := by
    have hpos : (collide_ball_segment g seg).ball.pos
        = g.ball.pos + Vec.smul (segDelta g seg).norm
            (g.ball.r - (segDelta g seg).mag) := by
      rw [hb, hn]
    rw [hpos, vec_shift]
    show segDelta g seg + Vec.smul (segDelta g seg).norm
        (g.ball.r - (segDelta g seg).mag) = _
    exact delta_scale _ _ hm
  rw [key, Vec.mag_smul, abs_of_pos (div_pos hrpos h0), div_mul_cancel₀ _ hm]

/-! ## Concrete evaluations for the segment fixtures -/

lemma segClosest_ex : segClosest ⟨0, 0⟩ ⟨2, 0⟩ ⟨1, 1⟩ = ⟨1, 0⟩ := by
  unfold segClosest clamp
  norm_num [Vec.sub_def, Vec.add_def, Vec.dot, Vec.smul]

lemma mag_01 : (⟨0, 1⟩ : Vec).mag = 1 := by
  norm_num [Vec.mag, Real.sqrt_one]

lemma mag_0neg1 : (⟨0, -1⟩ : Vec).mag = 1 := by
  norm_num [Vec.mag, Real.sqrt_one]

lemma norm_01 : Vec.norm ⟨0, 1⟩ = ⟨0, 1⟩ := by
  unfold Vec.norm
  rw [if_neg (by rw [mag_01]; norm_num), mag_01]
  norm_num

lemma segDelta_ex (fr la : ℤ) : segDelta (exGame fr la) exSeg = ⟨0, 1⟩ := by
  unfold segDelta
  show (⟨1, 1⟩ : Vec) - segClosest ⟨0, 0⟩ ⟨2, 0⟩ ⟨1, 1⟩ = ⟨0, 1⟩
  rw [segClosest_ex]
  apply Vec.eq_of
  · show (1 : ℝ) - 1 = 0
    norm_num
  · show (1 : ℝ) - 0 = 1
    norm_num

lemma segDelta_exS (fr la : ℤ) : segDelta (exGame fr la) exSlingSeg = ⟨0, 1⟩ := by
  unfold segDelta
  show (⟨1, 1⟩ : Vec) - segClosest ⟨0, 0⟩ ⟨2, 0⟩ ⟨1, 1⟩ = ⟨0, 1⟩
  rw [segClosest_ex]
  apply Vec.eq_of
  · show (1 : ℝ) - 1 = 0
    norm_num
  · show (1 : ℝ) - 0 = 1
    norm_num

/-- Witness for C9 on the fixture: the overlap distance is 1, the radius 2. -/
theorem c9_positional_correction_witness :
    (0 < (segDelta (exGame 0 0) exSeg).mag
      ∧ (segDelta (exGame 0 0) exSeg).mag < (exGame 0 0).ball.r)
    ∧ ((collide_ball_segment (exGame 0 0) exSeg).ball.pos
        - segClosest exSeg.p1 exSeg.p2 (exGame 0 0).ball.pos).mag
      = (exGame 0 0).ball.r := by
  have h0 : 0 < (segDelta (exGame 0 0) exSeg).mag := by
    rw [segDelta_ex, mag_01]
    norm_num
  have hr : (segDelta (exGame 0 0) exSeg).mag < (exGame 0 0).ball.r := by
    rw [segDelta_ex, mag_01]
    show (1 : ℝ) < 2
    norm_num
  exact ⟨⟨h0, hr⟩, c9_positional_correction (exGame 0 0) exSeg h0 hr⟩

/-! ## Claim C3: reflection formula and slingshot energy injection -/

/-- Claim C3: segment reflection uses `v - (1+e)(v.dot n)n` with restitution
1.5 for slingshots and `wall_bounce = 0.6` otherwise; for a slingshot hit
with a unit normal and non-grazing incidence the exit speed strictly exceeds
the incoming speed. -/
theorem c3_slingshot_superelastic (g : Game) (seg : Segment)
    (hhit : (segDelta g seg).mag < g.ball.r) :
    ((collide_ball_segment g seg).ball.vel
        = reflect g.ball.vel (segCollisionNormal seg (segDelta g seg))
            (if seg.kind = SegKind.slingshot then (1.5 : ℝ) else wall_bounce)
      ∧ wall_bounce = (0.6 : ℝ))
    ∧ (seg.kind = SegKind.slingshot →
        (segCollisionNormal seg (segDelta g seg)).mag = 1 →
        g.ball.vel.dot (segCollisionNormal seg (segDelta g seg)) ≠ 0 →
        g.ball.vel.mag < (collide_ball_segment g seg).ball.vel.mag) := by
  have hb := collide_seg_ball g seg hhit
  constructor
  · exact ⟨by rw [hb], rfl⟩
  · intro hk hn hdot
    have hvel : (collide_ball_segment g seg).ball.vel
        = reflect g.ball.vel (segCollisionNormal seg (segDelta g seg)) 1.5 := by
      rw [hb]
      simp [hk]
    rw [hvel]
    set n := segCollisionNormal seg (segDelta g seg) with hndef
    set v := g.ball.vel with hvdef
    have hnn : n.x ^ 2 + n.y ^ 2 = 1 := by
      have hsq := Vec.mag_sq n
      rw [hn] at hsq
      linarith
    have hkey : (reflect v n 1.5).x ^ 2 + (reflect v n 1.5).y ^ 2
        = v.x ^ 2 + v.y ^ 2 + 1.25 * (v.x * n.x + v.y * n.y) ^ 2 := by
      show (v.x - (1 + 1.5) * v.dot n * n.x) ^ 2
          + (v.y - (1 + 1.5) * v.dot n * n.y) ^ 2 = _
      unfold Vec.dot
      linear_combination (6.25 * (v.x * n.x + v.y * n.y) ^ 2) * hnn
    have hd2 : 0 < (v.x * n.x + v.y * n.y) ^ 2 :=
      pow_two_pos_of_ne_zero hdot
    show Real.sqrt (v.x ^ 2 + v.y ^ 2)
        < Real.sqrt ((reflect v n 1.5).x ^ 2 + (reflect v n 1.5).y ^ 2)
    apply Real.sqrt_lt_sqrt (by positivity)
    rw [hkey]
    linarith

/-- Witness for C3 on the slingshot fixture: the ball comes in at speed 3 and
leaves strictly faster. -/
theorem c3_slingshot_superelastic_witness :
    ((segDelta (exGame 0 0) exSlingSeg).mag < (exGame 0 0).ball.r
      ∧ exSlingSeg.kind = SegKind.slingshot
      ∧ (segCollisionNormal exSlingSeg (segDelta (exGame 0 0) exSlingSeg)).mag = 1
      ∧ (exGame 0 0).ball.vel.dot
          (segCollisionNormal exSlingSeg (segDelta (exGame 0 0) exSlingSeg)) ≠ 0)
    ∧ (exGame 0 0).ball.vel.mag
      < (collide_ball_segment (exGame 0 0) exSlingSeg).ball.vel.mag := by
  have hhit : (segDelta (exGame 0 0) exSlingSeg).mag < (exGame 0 0).ball.r := by
    rw [segDelta_exS, mag_01]
    show (1 : ℝ) < 2
    norm_num
  have hk : exSlingSeg.kind = SegKind.slingshot := rfl
  have hnc : segCollisionNormal exSlingSeg (segDelta (exGame 0 0) exSlingSeg)
      = ⟨0, 1⟩ := by
    rw [segDelta_exS]
    unfold segCollisionNormal
    rw [if_neg (by rw [mag_01]; norm_num)]
    exact norm_01
  have hn : (segCollisionNormal exSlingSeg (segDelta (exGame 0 0) exSlingSeg)).mag
      = 1 := by
    rw [hnc, mag_01]
  have hdot : (exGame 0 0).ball.vel.dot
      (segCollisionNormal exSlingSeg (segDelta (exGame 0 0) exSlingSeg)) ≠ 0 := by
    rw [hnc]
    show (⟨0, -3⟩ : Vec).dot ⟨0, 1⟩ ≠ 0
    norm_num [Vec.dot]
  exact ⟨⟨hhit, hk, hn, hdot⟩,
    (c3_slingshot_superelastic (exGame 0 0) exSlingSeg hhit).2 hk hn hdot⟩

/-! ## Claim C1: the wall-score throttle -/

/-- On a non-slingshot hit, the score and throttle bookkeeping of
`_collide_ball_segment` are exactly one `wallScoreStep`. -/
lemma collide_seg_score (g : Game) (seg : Segment)
    (hhit : (segDelta g seg).mag < g.ball.r) (hk : seg.kind ≠ SegKind.slingshot) :
    ((collide_ball_segment g seg).score,
        (collide_ball_segment g seg).lastWallScoreFrame)
      = wallScoreStep g.frame g.lastWallScoreFrame g.score := by
  simp only [collide_ball_segment, wallScoreStep]
  rw [if_pos hhit, if_neg hk]
  split_ifs with h
  · simp [add_score]
  · simp [add_score]

lemma runWall_quiet : ∀ (k : ℕ) (f last score : ℤ), f + k ≤ last + 7 →
    runWall f k (score, last) = (score, last) := by
  intro k
  induction k with
  | zero => intro f last score _; rfl
  | succ n ih =>
    intro f last score hk
    have hstep : wallScoreStep f last score = (score, last) := by
      unfold wallScoreStep
      rw [if_neg (by push_cast at hk; omega)]
    show runWall (f + 1) n (wallScoreStep f last score) = (score, last)
    rw [hstep]
    apply ih
    push_cast at hk ⊢
    omega

lemma runWall_append (a : ℕ) : ∀ (b : ℕ) (f : ℤ) (s : ℤ × ℤ),
    runWall f (a + b) s = runWall (f + a) b (runWall f a s) := by
  induction a with
  | zero =>
    intro b f s
    simp [runWall]
  | succ n ih =>
    intro b f s
    have h1 : (n + 1) + b = (n + b) + 1 := by omega
    rw [h1]
    show runWall (f + 1) (n + b) (wallScoreStep f s.2 s.1) = _
    rw [ih b (f + 1) (wallScoreStep f s.2 s.1)]
    have h2 : f + 1 + (n : ℤ) = f + ((n : ℤ) + 1) := by ring
    have h3 : ((n : ℤ) + 1) = ((n + 1 : ℕ) : ℤ) := by push_cast; ring
    rw [h2, h3]
    rfl

lemma runWall_bound : ∀ (n : ℕ) (f last score : ℤ),
    (runWall f n (score, last)).1 ≤ score + 10 * (((n + 6) / 7 : ℕ) : ℤ) := by
  intro n
  induction n using Nat.strong_induction_on with
  | _ n ih =>
    obtain _ | m := n
    · intro f last score
      show (score, last).1 ≤ _
      simp
    · intro f last score
      by_cases hc : 6 < f - last
      · have hstep : wallScoreStep f last score = (score + 10, f) := by
          unfold wallScoreStep
          rw [if_pos hc]
        by_cases hm : m ≤ 6
        · have hq : runWall (f + 1) m (score + 10, f) = (score + 10, f) :=
            runWall_quiet m (f + 1) f (score + 10) (by omega)
          show (runWall (f + 1) m (wallScoreStep f last score)).1 ≤ _
          rw [hstep, hq]
          show score + 10 ≤ _
          omega
        · push_neg at hm
          have hsplit : m = 6 + (m - 6) := by omega
          show (runWall (f + 1) m (wallScoreStep f last score)).1 ≤ _
          rw [hstep, hsplit, runWall_append 6 (m - 6) (f + 1) (score + 10, f)]
          rw [runWall_quiet 6 (f + 1) f (score + 10) (by push_cast; omega)]
          have hb := ih (m - 6) (by omega) (f + 1 + ((6 : ℕ) : ℤ)) f (score + 10)
          omega
      · have hstep : wallScoreStep f last score = (score, last) := by
          unfold wallScoreStep
          rw [if_neg hc]
        show (runWall (f + 1) m (wallScoreStep f last score)).1 ≤ _
        rw [hstep]
        have hb := ih m (by omega) (f + 1) last score
        omega

/-- Claim C1 (amended): a hit on a non-slingshot segment awards +10 if and
only if MORE than 6 frames have elapsed since the last wall score event
(the source condition is `frame - last_wall_score_frame > 6`, so a gap of
exactly 6 frames does not score); otherwise the score is unchanged. The
scoring bookkeeping of a hit is exactly one `wallScoreStep`, and over 100
consecutive frames of resting contact the score grows by at most
170 = 10 * ceil(100/6). -/
theorem c1_wall_score_throttle (g : Game) (seg : Segment)
    (hhit : (segDelta g seg).mag < g.ball.r) (hk : seg.kind ≠ SegKind.slingshot) :
    (((collide_ball_segment g seg).score,
        (collide_ball_segment g seg).lastWallScoreFrame)
      = wallScoreStep g.frame g.lastWallScoreFrame g.score)
    ∧ ((collide_ball_segment g seg).score = g.score + 10
        ↔ 6 < g.frame - g.lastWallScoreFrame)
    ∧ (¬ 6 < g.frame - g.lastWallScoreFrame →
        (collide_ball_segment g seg).score = g.score)
    ∧ (∀ (f last score : ℤ), (runWall f 100 (score, last)).1 ≤ score + 170) := by
  have hs := collide_seg_score g seg hhit hk
  have hbound : ∀ (f last score : ℤ),
      (runWall f 100 (score, last)).1 ≤ score + 170 := by
    intro f last score
    have hb := runWall_bound 100 f last score
    omega
  by_cases hgap : 6 < g.frame - g.lastWallScoreFrame
  · have hw : wallScoreStep g.frame g.lastWallScoreFrame g.score
        = (g.score + 10, g.frame) := by
      unfold wallScoreStep
      rw [if_pos hgap]
    rw [hw] at hs
    simp only [Prod.mk.injEq] at hs
    refine ⟨?_, ?_, ?_, hbound⟩
    · rw [hw, hs.1, hs.2]
    · exact ⟨fun _ => hgap, fun _ => hs.1⟩
    · intro h
      exact absurd hgap h
  · have hw : wallScoreStep g.frame g.lastWallScoreFrame g.score
        = (g.score, g.lastWallScoreFrame) := by
      unfold wallScoreStep
      rw [if_neg hgap]
    rw [hw] at hs
    simp only [Prod.mk.injEq] at hs
    refine ⟨?_, ?_, ?_, hbound⟩
    · rw [hw, hs.1, hs.2]
    · constructor
      · intro he
        rw [hs.1] at he
        omega
      · intro h
        exact absurd h hgap
    · intro _
      exact hs.1

/-- Counterexample to claim C1 as stated: with exactly 6 frames elapsed since
the last wall score (frame 10, last score frame 4), a wall hit awards
nothing, although "at least 6 frames elapsed" would predict +10. -/
theorem c1_wall_score_throttle_cex :
    ((segDelta (exGame 10 4) exSeg).mag < (exGame 10 4).ball.r
      ∧ exSeg.kind ≠ SegKind.slingshot
      ∧ 6 ≤ (exGame 10 4).frame - (exGame 10 4).lastWallScoreFrame)
    ∧ (collide_ball_segment (exGame 10 4) exSeg).score = (exGame 10 4).score
    ∧ (collide_ball_segment (exGame 10 4) exSeg).score
        ≠ (exGame 10 4).score + 10 := by
  have hhit : (segDelta (exGame 10 4) exSeg).mag < (exGame 10 4).ball.r := by
    rw [segDelta_ex, mag_01]
    show (1 : ℝ) < 2
    norm_num
  have hk : exSeg.kind ≠ SegKind.slingshot := by
    simp [exSeg]
  have hcs := collide_seg_score (exGame 10 4) exSeg hhit hk
  have hw : wallScoreStep (exGame 10 4).frame (exGame 10 4).lastWallScoreFrame
      (exGame 10 4).score = ((exGame 10 4).score, (exGame 10 4).lastWallScoreFrame) := by
    show wallScoreStep 10 4 0 = (0, 4)
    unfold wallScoreStep
    norm_num
  rw [hw] at hcs
  simp only [Prod.mk.injEq] at hcs
  refine ⟨⟨hhit, hk, by show (6 : ℤ) ≤ 10 - 4; norm_num⟩, hcs.1, ?_⟩
  rw [hcs.1]
  show (0 : ℤ) ≠ 0 + 10
  norm_num

/-- Witness for C1 on the fixture with a 10-frame gap (an award). -/
theorem c1_wall_score_throttle_witness :
    ((segDelta (exGame 10 0) exSeg).mag < (exGame 10 0).ball.r
      ∧ exSeg.kind ≠ SegKind.slingshot)
    ∧ ((collide_ball_segment (exGame 10 0) exSeg).score = (exGame 10 0).score + 10
        ↔ 6 < (exGame 10 0).frame - (exGame 10 0).lastWallScoreFrame)
    ∧ (∀ (f last score : ℤ), (runWall f 100 (score, last)).1 ≤ score + 170) := by
  have hhit : (segDelta (exGame 10 0) exSeg).mag < (exGame 10 0).ball.r := by
    rw [segDelta_ex, mag_01]
    show (1 : ℝ) < 2
    norm_num
  have hk : exSeg.kind ≠ SegKind.slingshot := by
    simp [exSeg]
  have h := c1_wall_score_throttle (exGame 10 0) exSeg hhit hk
  exact ⟨⟨hhit, hk⟩, h.2.1, h.2.2.2⟩

/-! ## Claim C2: bumper kick -/

/-- Claim C2: on every ball-bumper overlap the ball velocity is overwritten to
`normal * (max 5 incomingSpeed * 1.2)` along the pre-correction
center-to-center normal (straight up (0,-1) when the centers coincide), so the
resulting speed is exactly `max 5 incomingSpeed * 1.2`; the score increases by
100 and the bumper flash timer is reset to 10. -/
theorem c2_bumper_kick (g : Game) (b : Bumper)
    (hhit : (bumpDelta g b).mag < g.ball.r + b.r) :
    ((collide_ball_bumper g b).1.ball.vel
        = Vec.smul (circCollisionNormal (bumpDelta g b)) (max 5 g.ball.vel.mag * 1.2))
    ∧ (collide_ball_bumper g b).1.ball.vel.mag = max 5 g.ball.vel.mag * 1.2
    ∧ ((bumpDelta g b).mag = 0 → circCollisionNormal (bumpDelta g b) = ⟨0, -1⟩)
    ∧ (collide_ball_bumper g b).1.score = g.score + 100
    ∧ ((collide_ball_bumper g b).2).flashFrames = 10 := by
  have hvel : (collide_ball_bumper g b).1.ball.vel
      = Vec.smul (circCollisionNormal (bumpDelta g b)) (max 5 g.ball.vel.mag * 1.2) := by
    simp only [collide_ball_bumper]
    rw [if_pos hhit]
    simp [shake, add_score]
  have hspeed_nonneg : (0 : ℝ) ≤ max 5 g.ball.vel.mag * 1.2 := by
    have h5 : (0 : ℝ) ≤ max 5 g.ball.vel.mag := le_trans (by norm_num) (le_max_left _ _)
    nlinarith
  refine ⟨hvel, ?_, ?_, ?_, ?_⟩
  · rw [hvel, Vec.mag_smul, circ_norm_mag, mul_one, abs_of_nonneg hspeed_nonneg]
  · intro h
    unfold circCollisionNormal
    rw [if_neg (by simp [h])]
  · simp only [collide_ball_bumper]
    rw [if_pos hhit]
    simp [shake, add_score]
  · simp only [collide_ball_bumper]
    rw [if_pos hhit]
    simp [Bumper.hit]

lemma bumpDelta_ex : bumpDelta exBumpGame exBumper = ⟨0, -1⟩ := by
  unfold bumpDelta
  show (⟨0, 0⟩ : Vec) - ⟨0, 1⟩ = ⟨0, -1⟩
  apply Vec.eq_of
  · show (0 : ℝ) - 0 = 0
    norm_num
  · show (0 : ℝ) - 1 = -1
    norm_num

/-- Witness for C2: a stationary ball overlapping the fixture bumper leaves
with speed exactly `max 5 0 * 1.2`, +100 points and a fresh flash timer. -/
theorem c2_bumper_kick_witness :
    ((bumpDelta exBumpGame exBumper).mag < exBumpGame.ball.r + exBumper.r)
    ∧ (collide_ball_bumper exBumpGame exBumper).1.ball.vel.mag
        = max 5 exBumpGame.ball.vel.mag * 1.2
    ∧ (collide_ball_bumper exBumpGame exBumper).1.score = exBumpGame.score + 100
    ∧ ((collide_ball_bumper exBumpGame exBumper).2).flashFrames = 10 := by
  have hhit : (bumpDelta exBumpGame exBumper).mag < exBumpGame.ball.r + exBumper.r := by
    rw [bumpDelta_ex, mag_0neg1]
    show (1 : ℝ) < 10 + 3
    norm_num
  have h := c2_bumper_kick exBumpGame exBumper hhit
  exact ⟨hhit, h.2.1, h.2.2.2.1, h.2.2.2.2⟩

/-! ## Preservation lemmas for the collision pass -/

lemma SP_rfl (g : Game) : SP g g := ⟨rfl, rfl, le_refl _⟩

lemma SP_trans {g1 g2 g3 : Game} (h12 : SP g1 g2) (h23 : SP g2 g3) : SP g1 g3 :=
  ⟨h23.1.trans h12.1, h23.2.1.trans h12.2.1, h12.2.2.trans h23.2.2⟩

lemma SP_seg (g : Game) (seg : Segment) : SP g (collide_ball_segment g seg) := by
  unfold SP
  simp only [collide_ball_segment]
  split_ifs with h1 h2 h3 <;>
    refine ⟨?_, ?_, ?_⟩ <;>
    first
      | rfl
      | omega
      | (simp only [shake, add_score]; first | rfl | omega)

lemma SP_foldl (l : List Segment) : ∀ g : Game, SP g (l.foldl collide_ball_segment g) := by
  induction l with
  | nil => intro g; exact SP_rfl g
  | cons s t ih =>
    intro g
    exact SP_trans (SP_seg g s) (ih (collide_ball_segment g s))

lemma SP_bumper (g : Game) (b : Bumper) : SP g (collide_ball_bumper g b).1 := by
  unfold SP
  simp only [collide_ball_bumper]
  split_ifs with h1 <;>
    refine ⟨?_, ?_, ?_⟩ <;>
    first
      | rfl
      | omega
      | (simp only [shake, add_score]; first | rfl | omega)

lemma SP_bumpers (l : List Bumper) : ∀ g : Game, SP g (collide_bumpers g l).1 := by
  induction l with
  | nil => intro g; exact SP_rfl g
  | cons b t ih =>
    intro g
    exact SP_trans (SP_bumper g b) (ih (collide_ball_bumper g b).1)

lemma SP_flipper (g : Game) (f : Flipper) : SP g (collide_ball_flipper g f) := by
  unfold SP
  simp only [collide_ball_flipper]
  split_ifs with h1 h2 <;>
    refine ⟨?_, ?_, ?_⟩ <;>
    rfl

lemma SP_setBumpers (g : Game) (bs : List Bumper) : SP g { g with bumpers := bs } :=
  ⟨rfl, rfl, le_refl _⟩

lemma SP_clampx (g : Game) : SP g (clamp_x g) := by
  unfold SP
  simp only [clamp_x]
  split_ifs with h1 h2 h3 <;> exact ⟨rfl, rfl, le_refl _⟩

lemma SP_resolve (g : Game) : SP g (resolve_collisions g) := by
  simp only [resolve_collisions]
  exact SP_trans (SP_trans (SP_trans (SP_trans (SP_trans
    (SP_foldl g.segs g) (SP_bumpers _ _)) (SP_setBumpers _ _))
    (SP_flipper _ _)) (SP_flipper _ _)) (SP_clampx _)

/-! ## Life-loss, ball step and frame step lemmas -/

lemma lose_ball_spec (g : Game) :
    (lose_ball g).lives = g.lives - 1
    ∧ (lose_ball g).score = g.score
    ∧ (g.lives - 1 ≤ 0 → (lose_ball g).mode = Mode.gameover
        ∧ (lose_ball g).ball = g.ball)
    ∧ (¬ g.lives - 1 ≤ 0 → (lose_ball g).mode = g.mode
        ∧ (lose_ball g).ball = g.ball.reset_in_lane W H) := by
  simp only [lose_ball, shake]
  split_ifs with h1
  · exact ⟨rfl, rfl, fun _ => ⟨rfl, rfl⟩, fun hc => absurd h1 hc⟩
  · exact ⟨rfl, rfl, fun hc => absurd hc h1, fun _ => ⟨rfl, rfl⟩⟩

lemma step_ball_drain (g : Game) (ha : g.ball.active = true)
    (hd : H + 50 < (top_clamp (integrate g.ball)).pos.y) :
    step_ball g = lose_ball { g with ball := top_clamp (integrate g.ball) } := by
  simp only [step_ball]
  rw [if_pos ha, if_pos hd]

lemma step_ball_nodrain (g : Game) (ha : g.ball.active = true)
    (hd : ¬ H + 50 < (top_clamp (integrate g.ball)).pos.y) :
    step_ball g = resolve_collisions (resolve_collisions
      { g with ball := top_clamp (integrate g.ball) }) := by
  simp only [step_ball]
  rw [if_pos ha, if_neg hd]

lemma step_ball_inactive (g : Game) (ha : ¬ g.ball.active = true) :
    step_ball g = g := by
  simp only [step_ball]
  rw [if_neg ha]

lemma render_decay_fields (g : Game) :
    (render_decay g).lives = g.lives ∧ (render_decay g).mode = g.mode
    ∧ (render_decay g).score = g.score ∧ (render_decay g).ball = g.ball :=
  ⟨rfl, rfl, rfl, rfl⟩

lemma tick_playing (g : Game) (hm : g.mode = Mode.playing) :
    tick g = render_decay (step_ball { g with
      frame := g.frame + 1
      left := (g.left.set_pressed g.leftDown).update flipper_speed
      right := (g.right.set_pressed g.rightDown).update flipper_speed }) := by
  simp only [tick]
  rw [if_pos (show ({ g with frame := g.frame + 1 } : Game).mode = Mode.playing from hm)]

lemma tick_not_playing (g : Game) (hm : ¬ g.mode = Mode.playing) :
    tick g = render_decay { g with frame := g.frame + 1 } := by
  simp only [tick]
  rw [if_neg (show ¬ ({ g with frame := g.frame + 1 } : Game).mode = Mode.playing from hm)]

/-! ## The session invariant -/

lemma inv_of_fields {g g' : Game} (hl : g'.lives = g.lives) (hm : g'.mode = g.mode)
    (h : SessionInv g) : SessionInv g' := by
  unfold SessionInv at *
  rw [hl, hm]
  exact h

lemma inv_lose_ball (g : Game) (h1 : 1 ≤ g.lives) (h3 : g.lives ≤ 3) :
    SessionInv (lose_ball g) := by
  have hs := lose_ball_spec g
  by_cases hz : g.lives - 1 ≤ 0
  · obtain ⟨hmode, _⟩ := hs.2.2.1 hz
    refine ⟨⟨by rw [hs.1]; omega, by rw [hs.1]; omega⟩, ?_⟩
    intro hp
    rw [hmode] at hp
    exact absurd hp (by simp)
  · obtain ⟨hmode, _⟩ := hs.2.2.2 hz
    refine ⟨⟨by rw [hs.1]; omega, by rw [hs.1]; omega⟩, ?_⟩
    intro _
    rw [hs.1]
    omega

lemma inv_step_ball (g : Game) (h : SessionInv g) (hm : g.mode = Mode.playing) :
    SessionInv (step_ball g) := by
  by_cases ha : g.ball.active = true
  · by_cases hd : H + 50 < (top_clamp (integrate g.ball)).pos.y
    · rw [step_ball_drain g ha hd]
      exact inv_lose_ball _ (h.2 hm) h.1.2
    · rw [step_ball_nodrain g ha hd]
      have hsp := SP_trans
        (SP_resolve { g with ball := top_clamp (integrate g.ball) })
        (SP_resolve _)
      exact inv_of_fields hsp.1 hsp.2.1 (inv_of_fields rfl rfl h)
  · rw [step_ball_inactive g ha]
    exact h

lemma inv_tick (g : Game) (h : SessionInv g) : SessionInv (tick g) := by
  by_cases hm : g.mode = Mode.playing
  · rw [tick_playing g hm]
    exact inv_of_fields (render_decay_fields _).1 (render_decay_fields _).2.1
      (inv_step_ball _ (inv_of_fields rfl rfl h) hm)
  · rw [tick_not_playing g hm]
    exact inv_of_fields (render_decay_fields _).1 (render_decay_fields _).2.1
      (inv_of_fields rfl rfl h)

lemma inv_step (g : Game) (e : Event) (h : SessionInv g) : SessionInv (step g e) := by
  cases e with
  | frame => exact inv_tick g h
  | leftDown =>
    show SessionInv (if g.mode = Mode.playing then { g with leftDown := true } else g)
    split_ifs with hm
    · exact inv_of_fields rfl rfl h
    · exact h
  | leftUp => exact inv_of_fields rfl rfl h
  | rightDown =>
    show SessionInv (if g.mode = Mode.playing then { g with rightDown := true } else g)
    split_ifs with hm
    · exact inv_of_fields rfl rfl h
    · exact h
  | rightUp => exact inv_of_fields rfl rfl h
  | launch u =>
    show SessionInv (if g.mode = Mode.playing then { g with ball := g.ball.launch W u } else g)
    split_ifs with hm
    · exact inv_of_fields rfl rfl h
    · exact h
  | click =>
    show SessionInv (start_game g)
    refine ⟨⟨?_, ?_⟩, fun _ => ?_⟩
    · show (0 : ℤ) ≤ 3
      norm_num
    · show (3 : ℤ) ≤ 3
      norm_num
    · show (1 : ℤ) ≤ 3
      norm_num

lemma reach_inv (g : Game) (h : Reach g) : SessionInv g := by
  induction h with
  | init =>
    refine ⟨⟨?_, ?_⟩, ?_⟩
    · show (0 : ℤ) ≤ 3
      norm_num
    · show (3 : ℤ) ≤ 3
      norm_num
    · intro hp
      exact absurd hp (by simp [init_game])
  | next g e hg hu ih => exact inv_step g e ih

/-! ## Claim C4: lives bounds and the drain sequence -/

/-- Claim C4: in every reachable session state, lives lies in [0, 3] (and a
playing state has at least one life); while playing, when the integrated ball
position falls below `H + 50` the life-loss sequence runs within that same
frame step: lives is decremented, a result of 0 (never negative) switches to
game over on the same frame, and otherwise the ball is re-served into the
launch lane with zero velocity and the state stays playing. -/
theorem c4_lives_bounds_and_drain :
    (∀ g : Game, Reach g →
      (0 ≤ g.lives ∧ g.lives ≤ 3) ∧ (g.mode = Mode.playing → 1 ≤ g.lives))
    ∧ (∀ g : Game, g.mode = Mode.playing → 1 ≤ g.lives → g.ball.active = true →
        H + 50 < (top_clamp (integrate g.ball)).pos.y →
        (tick g).lives = g.lives - 1
        ∧ ((tick g).lives ≤ 0 → (tick g).mode = Mode.gameover ∧ (tick g).lives = 0)
        ∧ (0 < (tick g).lives → (tick g).mode = Mode.playing
            ∧ (tick g).ball.pos = ⟨W - 20, H - 100⟩
            ∧ (tick g).ball.vel = ⟨0, 0⟩
            ∧ (tick g).ball.active = true)) := by
  constructor
  · intro g hg
    exact reach_inv g hg
  · intro g hm hl ha hd
    rw [tick_playing g hm]
    have hstep : step_ball { g with
        frame := g.frame + 1
        left := (g.left.set_pressed g.leftDown).update flipper_speed
        right := (g.right.set_pressed g.rightDown).update flipper_speed }
      = lose_ball { g with
        frame := g.frame + 1
        left := (g.left.set_pressed g.leftDown).update flipper_speed
        right := (g.right.set_pressed g.rightDown).update flipper_speed
        ball := top_clamp (integrate g.ball) } := step_ball_drain _ ha hd
    rw [hstep]
    have hspec := lose_ball_spec { g with
        frame := g.frame + 1
        left := (g.left.set_pressed g.leftDown).update flipper_speed
        right := (g.right.set_pressed g.rightDown).update flipper_speed
        ball := top_clamp (integrate g.ball) }
    rw [(render_decay_fields _).1, (render_decay_fields _).2.1,
      (render_decay_fields _).2.2.2, hspec.1]
    refine ⟨rfl, ?_, ?_⟩
    · intro hle
      have hz : g.lives - 1 ≤ 0 := hle
      obtain ⟨hmode, _⟩ := hspec.2.2.1 hz
      refine ⟨hmode, ?_⟩
      show g.lives - 1 = 0
      omega
    · intro hpos
      have hz : ¬ g.lives - 1 ≤ 0 := by
        have : (0 : ℤ) < g.lives - 1 := hpos
        omega
      obtain ⟨hmode, hball⟩ := hspec.2.2.2 hz
      refine ⟨hmode.trans hm, ?_, ?_, ?_⟩ <;> rw [hball] <;> rfl

/-- A concrete drained ball: at y = 800 with zero velocity the integrated,
top-clamped position is below the drain line H + 50 = 750. -/
lemma drain_ex : H + 50 < (top_clamp (integrate exDrainGame.ball)).pos.y := by
  have hne : ¬ ((integrate exDrainGame.ball).pos.y < (integrate exDrainGame.ball).r) := by
    show ¬ (800 + (0 + gravity) * friction < 10)
    norm_num [gravity, friction]
  unfold top_clamp
  rw [if_neg hne]
  show H + 50 < 800 + (0 + gravity) * friction
  norm_num [H, gravity, friction]

/-- Witness for C4: the initial state satisfies the bounds, and the concrete
drained playing state with 3 lives loses exactly one life, stays playing and
re-serves the ball. -/
theorem c4_lives_bounds_and_drain_witness :
    (0 ≤ init_game.lives ∧ init_game.lives ≤ 3)
    ∧ (exDrainGame.mode = Mode.playing ∧ 1 ≤ exDrainGame.lives
      ∧ exDrainGame.ball.active = true
      ∧ H + 50 < (top_clamp (integrate exDrainGame.ball)).pos.y)
    ∧ (tick exDrainGame).lives = exDrainGame.lives - 1
    ∧ (0 < (tick exDrainGame).lives → (tick exDrainGame).mode = Mode.playing
        ∧ (tick exDrainGame).ball.pos = ⟨W - 20, H - 100⟩) := by
  have hb := (c4_lives_bounds_and_drain.1 init_game Reach.init).1
  have hm : exDrainGame.mode = Mode.playing := rfl
  have hl : (1 : ℤ) ≤ exDrainGame.lives := by
    show (1 : ℤ) ≤ 3
    norm_num
  have ha : exDrainGame.ball.active = true := rfl
  have h2 := c4_lives_bounds_and_drain.2 exDrainGame hm hl ha drain_ex
  exact ⟨hb, ⟨hm, hl, ha, drain_ex⟩, h2.1,
    fun hp => ⟨(h2.2.2 hp).1, (h2.2.2 hp).2.1⟩⟩

/-! ## Claim C7: score monotonicity and the restart reset -/

lemma step_ball_score (g : Game) : g.score ≤ (step_ball g).score := by
  by_cases ha : g.ball.active = true
  · by_cases hd : H + 50 < (top_clamp (integrate g.ball)).pos.y
    · rw [step_ball_drain g ha hd]
      rw [(lose_ball_spec _).2.1]
    · rw [step_ball_nodrain g ha hd]
      have hsp := SP_trans
        (SP_resolve { g with ball := top_clamp (integrate g.ball) })
        (SP_resolve _)
      exact hsp.2.2
  · rw [step_ball_inactive g ha]

lemma tick_score (g : Game) : g.score ≤ (tick g).score := by
  by_cases hm : g.mode = Mode.playing
  · rw [tick_playing g hm]
    rw [(render_decay_fields _).2.2.1]
    exact step_ball_score _
  · rw [tick_not_playing g hm]
    exact le_refl _

/-- Claim C7 (code bug exhibit): the only transition that ever lowers the
score is the overlay-click restart, which always resets the score to 0 and
enters playing; but because `_on_click` does not check the current mode and
the button rectangle persists after the overlay disappears, the restart (and
hence the reset) also fires from a mid-session Playing state — contradicting
"reset only on a Start/GameOver to Playing transition". The first conjunct
evaluates the code at such a failing input. -/
theorem c7_score_reset_bug :
    (exPlayGame.mode = Mode.playing ∧ (500 : ℤ) ≤ exPlayGame.score
      ∧ (step exPlayGame Event.click).score = 0
      ∧ (step exPlayGame Event.click).mode = Mode.playing
      ∧ (step exPlayGame Event.click).score < exPlayGame.score)
    ∧ (∀ (g : Game) (e : Event), e ≠ Event.click → g.score ≤ (step g e).score)
    ∧ (∀ g : Game, (step g Event.click).score = 0
        ∧ (step g Event.click).mode = Mode.playing) := by
  refine ⟨⟨rfl, ?_, rfl, rfl, ?_⟩, ?_, fun g => ⟨rfl, rfl⟩⟩
  · show (500 : ℤ) ≤ 500
    norm_num
  · show (0 : ℤ) < 500
    norm_num
  · intro g e he
    cases e with
    | frame => exact tick_score g
    | leftDown =>
      show g.score ≤ (if g.mode = Mode.playing then
        ({ g with leftDown := true } : Game) else g).score
      split_ifs <;> exact le_refl _
    | leftUp => exact le_refl _
    | rightDown =>
      show g.score ≤ (if g.mode = Mode.playing then
        ({ g with rightDown := true } : Game) else g).score
      split_ifs <;> exact le_refl _
    | rightUp => exact le_refl _
    | launch u =>
      show g.score ≤ (if g.mode = Mode.playing then
        ({ g with ball := g.ball.launch W u } : Game) else g).score
      split_ifs with hm
      · show g.score ≤ g.score
        exact le_refl _
      · exact le_refl _
    | click => exact absurd rfl he

/-- Witness for C7's universally quantified part at the initial state and a
frame event. -/
theorem c7_score_reset_bug_witness :
    Event.frame ≠ Event.click
    ∧ init_game.score ≤ (step init_game Event.frame).score := by
  have hne : Event.frame ≠ Event.click := fun h => nomatch h
  exact ⟨hne, c7_score_reset_bug.2.1 init_game Event.frame hne⟩
